import Mathlib

/-!
# I2C_Proxy: the buffered transaction layer of `src/I2C.cpp`

A shallow embedding of the class `I2C` (an Arduino-Wire style driver over the
Pico SDK blocking transfers) and theorems about its transaction protocol.

* The object is a record of its data members; every method is a function from
  the old record to the returned value, the new record and the list of calls
  it made into the physical layer (and, in the FreeRTOS build, into the
  per-port gate).
* The physical layer (`i2c_write_blocking`, `i2c_read_blocking`) is external:
  it is a pair of functions giving the result of each call.
* `uint8_t` members are natural numbers, reduced `% 256` wherever the source
  stores into them; `int` values are integers.
* The static array of gates of `src/freertos/I2C_freeRTOS.cpp` is threaded
  through the three functions that use it; the FreeRTOS calls are external.
-/

namespace I2CProxy

/-- An octet, the C++ type uint8_t when it is used as data. -/
abbrev Byte := Fin 256

/-- Pico SDK constant (pico/error.h), the result of a blocking transfer that
was not acknowledged. The SDK is not part of the repository. -/
def PICO_ERROR_GENERIC : Int := -1

/-- Modelled from the spec: the class declaration I2C.hpp is not among the
sources, so the two array sizes it fixes, `sizeof(_txBuffer)` and
`sizeof(_rxBuffer)` (the spec: "fixed maximum capacity, implementation
constant, e.g. 32 bytes"), are parameters. `useFreeRTOS` is the compile-time
switch `I2C_USE_FREERTOS`. -/
structure Build where
  txSize : Nat
  rxSize : Nat
  useFreeRTOS : Bool
deriving DecidableEq, Repr

/-- Modelled from the spec: the data members of class I2C, as the constructor
and the methods of I2C.cpp use them (I2C.hpp is not among the sources). The
counters `_rxBufferIndex`, `_rxBufferLength`, `_txBufferIndex`,
`_txBufferLength` are taken to be uint8_t, the type in which `requestFrom`
returns `_rxBufferLength`; an array is the list of its cells. The hardware
handles `_i2c`, `_sda`, `_scl` are only passed through to the SDK and are left
out; `_port` stands for the bus instance. -/
structure I2C where
  port : Nat
  rxBuffer : List Byte
  rxBufferIndex : Nat
  rxBufferLength : Nat
  txAddress : Byte
  txBuffer : List Byte
  txBufferIndex : Nat
  txBufferLength : Nat
  transmitting : Bool
  nostop : Bool
deriving DecidableEq, Repr

/-- A call that leaves the driver: a blocking transfer of the physical layer,
or (FreeRTOS build) a call on the gate of a port. -/
inductive BusEvent where
  /-- The call i2c_write_blocking(_i2c, addr, src, len, nostop); `src` is the
  `len` bytes handed over. -/
  | write (addr : Byte) (src : List Byte) (nostop : Bool)
  /-- The call i2c_read_blocking(_i2c, addr, dst, len, nostop). -/
  | read (addr : Byte) (len : Nat) (nostop : Bool)
  /-- The call takeI2C(port, portMAX_DELAY). -/
  | take (port : Nat)
  /-- The call releaseI2C(port). -/
  | release (port : Nat)
deriving DecidableEq, Repr

/-- Recognises a blocking write among the calls. -/
def BusEvent.isWrite : BusEvent → Bool
  | .write _ _ _ => true
  | _ => false

/-- Recognises a blocking read among the calls. -/
def BusEvent.isRead : BusEvent → Bool
  | .read _ _ _ => true
  | _ => false

/-- Recognises a call on the gate of a port. -/
def BusEvent.isGate : BusEvent → Bool
  | .take _ => true
  | .release _ => true
  | _ => false

/-- The physical layer as the driver sees it. `i2c_write_blocking addr src
nostop` is the int the SDK call returns (bytes sent, or a negative error).
`i2c_read_blocking addr len nostop` is the int the SDK call returns together
with the bytes the transfer stored at the start of the destination array. -/
structure PhysicalLayer where
  i2c_write_blocking : Byte → List Byte → Bool → Int
  i2c_read_blocking : Byte → Nat → Bool → Int × List Byte

/-- The destination array after a transfer stored `src` at its start. -/
def store (dst src : List Byte) : List Byte :=
  src ++ dst.drop src.length

/-- The staged bytes: the first `_txBufferLength` cells of `_txBuffer`. -/
def I2C.staged (s : I2C) : List Byte :=
  s.txBuffer.take s.txBufferLength

/-- The constructor I2C::I2C. It assigns the four counters and
`_transmitting`, and derives `_port` from the bus instance; the members it
does not assign keep what the memory `mem` held. (The FreeRTOS build also
calls initI2CSemaphore(_port) here, which does not touch the object.) -/
def I2C.construct (isI2c1 : Bool) (mem : I2C) : I2C :=
  { mem with
    rxBufferIndex := 0
    rxBufferLength := 0
    txBufferIndex := 0
    txBufferLength := 0
    transmitting := false
    port := if isI2c1 then 1 else 0 }

/-- I2C::beginTransmission(address, nostop). -/
def I2C.beginTransmission (B : Build) (s : I2C) (address : Byte) (nostop : Bool) :
    I2C × List BusEvent :=
  ({ s with
     txAddress := address
     txBufferIndex := 0
     txBufferLength := 0
     transmitting := true
     nostop := nostop },
   if B.useFreeRTOS then [BusEvent.take s.port] else [])

/-- I2C::write(uint8_t data). -/
def I2C.write (B : Build) (s : I2C) (data : Byte) : Nat × I2C :=
  if !s.transmitting || decide (s.txBufferLength ≥ B.txSize) then
    (0, s)
  else
    (1, { s with
          txBuffer := s.txBuffer.set s.txBufferLength data
          txBufferLength := (s.txBufferLength + 1) % 256 })

/-- The for loop of I2C::write(const uint8_t*, size_t): `i` is the loop
counter and the list holds `data[i], ..., data[quantity-1]`. -/
def I2C.writeLoop (B : Build) : I2C → List Byte → Nat → Nat × I2C
  | s, [], i => (i, s)
  | s, d :: rest, i =>
    let r := s.write B d
    if r.1 = 0 then (i, r.2) else I2C.writeLoop B r.2 rest (i + 1)

/-- I2C::write(const uint8_t *data, size_t quantity), with `data` the
`quantity` bytes the pointer designates. -/
def I2C.writeBytes (B : Build) (s : I2C) (data : List Byte) : Nat × I2C :=
  if !s.transmitting then (0, s) else I2C.writeLoop B s data 0

/-- I2C::endTransmission(). -/
def I2C.endTransmission (B : Build) (P : PhysicalLayer) (s : I2C) :
    Nat × I2C × List BusEvent :=
  if !s.transmitting then
    (4, s, [])
  else
    let ret := P.i2c_write_blocking s.txAddress s.staged s.nostop
    let s1 := { s with transmitting := false }
    let calls := BusEvent.write s.txAddress s.staged s.nostop ::
      (if B.useFreeRTOS then [BusEvent.release s.port] else [])
    if ret = PICO_ERROR_GENERIC then (2, s1, calls)
    else if ret < (s.txBufferLength : Int) then (3, s1, calls)
    else (0, s1, calls)

/-- The read phase of I2C::requestFrom (from the call of i2c_read_blocking to
the return), `quantity` already clamped and `calls` the calls made so far. -/
def I2C.requestFromRead (P : PhysicalLayer) (s : I2C) (address : Byte)
    (quantity : Nat) (nostop : Bool) (calls : List BusEvent) :
    Nat × I2C × List BusEvent :=
  let r := P.i2c_read_blocking address quantity nostop
  let s1 := { s with
              rxBuffer := store s.rxBuffer (r.2.take quantity)
              rxBufferLength := if r.1 < 0 then 0 else (r.1 % 256).toNat
              rxBufferIndex := 0 }
  (s1.rxBufferLength, s1, calls ++ [BusEvent.read address quantity nostop])

/-- I2C::requestFrom(address, quantity, nostop). -/
def I2C.requestFrom (B : Build) (P : PhysicalLayer) (s : I2C) (address : Byte)
    (quantity : Nat) (nostop : Bool) : Nat × I2C × List BusEvent :=
  let quantity := if quantity > B.rxSize then B.rxSize else quantity
  if s.txBufferLength > 0 then
    let ret := P.i2c_write_blocking address s.staged s.nostop
    let w := BusEvent.write address s.staged s.nostop
    if ret < (s.txBufferLength : Int) then
      (0, { s with rxBufferLength := 0, rxBufferIndex := 0 }, [w])
    else
      I2C.requestFromRead P { s with txBufferLength := 0 } address quantity nostop [w]
  else
    I2C.requestFromRead P s address quantity nostop []

/-- I2C::available(). -/
def I2C.available (s : I2C) : Int :=
  (s.rxBufferLength : Int) - (s.rxBufferIndex : Int)

/-- I2C::read(). A cell outside the array reads as 0. -/
def I2C.read (s : I2C) : Int × I2C :=
  if s.rxBufferIndex < s.rxBufferLength then
    (((s.rxBuffer.getD s.rxBufferIndex 0).val : Int),
      { s with rxBufferIndex := (s.rxBufferIndex + 1) % 256 })
  else
    (-1, s)

/-- The results of `n` successive calls of I2C::read(), each paired with what
I2C::available() returned just before it, and the object afterwards. -/
def I2C.readMany : Nat → I2C → List (Int × Int) × I2C
  | 0, s => ([], s)
  | n + 1, s =>
    let r := s.read
    let rest := I2C.readMany n r.2
    ((s.available, r.1) :: rest.1, rest.2)

/-- The objects `s` and `t` agree on every member other than `_txBuffer` and
`_txBufferLength`. -/
def I2C.sameButTx (s t : I2C) : Prop :=
  t.port = s.port ∧ t.rxBuffer = s.rxBuffer ∧ t.rxBufferIndex = s.rxBufferIndex ∧
  t.rxBufferLength = s.rxBufferLength ∧ t.txAddress = s.txAddress ∧
  t.txBufferIndex = s.txBufferIndex ∧ t.transmitting = s.transmitting ∧ t.nostop = s.nostop

instance (s t : I2C) : Decidable (s.sameButTx t) := by
  unfold I2C.sameButTx
  infer_instance

/-- The for loop of I2C::read(uint8_t*, uint): `i` is the loop counter, the
first argument is `len - i` (the iterations the test `i < len` still admits)
and `buffer` is the caller array; a store outside that array is dropped. -/
def I2C.readLoop : Nat → Nat → I2C → List Byte → I2C × List Byte
  | 0, _, s, buffer => (s, buffer)
  | n + 1, i, s, buffer =>
    if s.rxBufferIndex < s.rxBufferLength then
      I2C.readLoop n (i + 1)
        { s with rxBufferIndex := (s.rxBufferIndex + 1) % 256 }
        (buffer.set i (s.rxBuffer.getD s.rxBufferIndex 0))
    else
      (s, buffer)

/-- I2C::read(uint8_t *buffer, uint len). The method is declared void: the
value it returns is `()`; the other components are the object and the caller
array afterwards. -/
def I2C.readInto (s : I2C) (buffer : List Byte) (len : Nat) : Unit × I2C × List Byte :=
  ((), I2C.readLoop len 0 s buffer)

/-- One call of a public method of the driver, with the physical layer as it
answers during that call. -/
inductive Op where
  | beginTransmission (address : Byte) (nostop : Bool)
  | write (data : Byte)
  | writeBytes (data : List Byte)
  | endTransmission (P : PhysicalLayer)
  | requestFrom (P : PhysicalLayer) (address : Byte) (quantity : Nat) (nostop : Bool)
  | available
  | read
  | readInto (buffer : List Byte) (len : Nat)

/-- The object after one call. -/
def I2C.step (B : Build) (s : I2C) : Op → I2C
  | .beginTransmission address nostop => (s.beginTransmission B address nostop).1
  | .write data => (s.write B data).2
  | .writeBytes data => (s.writeBytes B data).2
  | .endTransmission P => (s.endTransmission B P).2.1
  | .requestFrom P address quantity nostop => (s.requestFrom B P address quantity nostop).2.1
  | .available => s
  | .read => s.read.2
  | .readInto buffer len => (s.readInto buffer len).2.1

/-- The object after a sequence of calls. -/
def I2C.run (B : Build) (s : I2C) (ops : List Op) : I2C :=
  ops.foldl (I2C.step B) s

/-- The physical layer never reports more bytes read than it was asked for. -/
def PhysicalLayer.readsWithinRequest (P : PhysicalLayer) : Prop :=
  ∀ (addr : Byte) (len : Nat) (nostop : Bool), (P.i2c_read_blocking addr len nostop).1 ≤ (len : Int)

/-- The assumption on the physical layer, for one call. -/
def Op.lawful : Op → Prop
  | .requestFrom P _ _ _ => P.readsWithinRequest
  | _ => True

/-- Recognises the two read methods. -/
def Op.isRead : Op → Bool
  | .read => true
  | .readInto _ _ => true
  | _ => false

/-- Recognises requestFrom. -/
def Op.isRequestFrom : Op → Bool
  | .requestFrom _ _ _ _ => true
  | _ => false

/-- The bounds on the counters: `_txBufferLength` within the transmit array,
`_rxBufferIndex ≤ _rxBufferLength`, `_rxBufferLength` within the receive array
and within the range of uint8_t. -/
def I2C.bounded (B : Build) (s : I2C) : Prop :=
  s.txBufferLength ≤ B.txSize ∧ s.rxBufferIndex ≤ s.rxBufferLength ∧
  s.rxBufferLength ≤ B.rxSize ∧ s.rxBufferLength < 256

instance (B : Build) (s : I2C) : Decidable (s.bounded B) := by
  unfold I2C.bounded
  infer_instance

/-! ## The per-port gate of `src/freertos/I2C_freeRTOS.cpp` -/

/-- FreeRTOS constant (projdefs.h); FreeRTOS is not part of the repository. -/
def pdPASS : Int := 1

/-- FreeRTOS constant (projdefs.h); FreeRTOS is not part of the repository. -/
def pdFAIL : Int := 0

/-- A non-NULL SemaphoreHandle_t, by identity. -/
abbrev SemaphoreHandle := Nat

/-- The static array `i2cSemaphores[2]`; `none` is NULL. -/
abbrev SemTable := Fin 2 → Option SemaphoreHandle

/-- The initial value of `i2cSemaphores`, both slots NULL. -/
def SemTable.initial : SemTable := fun _ => none

/-- The function initI2CSemaphore(port). `xSemaphoreCreateMutex` is what the
FreeRTOS call returns if it is made (`none` is NULL). The result is the
returned BaseType_t, the array afterwards and the number of calls of
xSemaphoreCreateMutex. -/
def initI2CSemaphore (xSemaphoreCreateMutex : Option SemaphoreHandle) (t : SemTable)
    (port : Nat) : Int × SemTable × Nat :=
  if h : port ≥ 2 then
    (pdFAIL, t, 0)
  else
    let p : Fin 2 := ⟨port, by omega⟩
    let r : SemTable × Nat :=
      if t p = none then (Function.update t p xSemaphoreCreateMutex, 1) else (t, 0)
    if r.1 p = none then (pdFAIL, r.1, r.2) else (pdPASS, r.1, r.2)

/-- The function takeI2C(port, delay). `xSemaphoreTake` is what the FreeRTOS
call returns for a handle and a delay. The array is only read. -/
def takeI2C (xSemaphoreTake : SemaphoreHandle → Nat → Int) (t : SemTable) (port : Nat)
    (delay : Nat) : Int × SemTable :=
  if h : port ≥ 2 then
    (pdFAIL, t)
  else
    match t ⟨port, by omega⟩ with
    | none => (pdFAIL, t)
    | some handle => (xSemaphoreTake handle delay, t)

/-- The function releaseI2C(port). `xSemaphoreGive` is what the FreeRTOS call
returns for a handle. The array is only read. -/
def releaseI2C (xSemaphoreGive : SemaphoreHandle → Int) (t : SemTable) (port : Nat) :
    Int × SemTable :=
  if h : port ≥ 2 then
    (pdFAIL, t)
  else
    match t ⟨port, by omega⟩ with
    | none => (pdFAIL, t)
    | some handle => (xSemaphoreGive handle, t)

/-- The slot of `port` in the array, NULL for an index outside it. -/
def SemTable.slot (t : SemTable) (port : Nat) : Option SemaphoreHandle :=
  if h : port < 2 then t ⟨port, h⟩ else none

/-! ## Two tasks on one object (FreeRTOS build) -/

/-- One object used by several tasks, with the mutex of its port: `holder` is
the task that holds the mutex (`none` when it is free; the mutex exists, that
is initI2CSemaphore passed) and `calls` are the calls made so far, each with
the task that made it. -/
structure Shared where
  obj : I2C
  holder : Option Nat
  calls : List (Nat × BusEvent)
deriving DecidableEq, Repr

/-- A step of a task that other tasks can run between. beginTransmission is
two steps, in the order of the source: the member assignments (I2C.cpp lines
62-66) and then the call takeI2C(_port, portMAX_DELAY) (line 68), at which the
task is suspended while another task holds the mutex. -/
inductive TaskStep where
  | beginAssign (address : Byte) (nostop : Bool)
  | beginTake
  | write (data : Byte)
  | endTransmission (P : PhysicalLayer)

/-- The effect of releaseI2C by `task` on the holder of the mutex: the holder
frees it; a give by a task that does not hold it changes nothing. -/
def Shared.give (holder : Option Nat) (task : Nat) : Option Nat :=
  if holder = some task then none else holder

/-- One step of `task`; `none` when the task cannot take the step now (it stays
suspended in xSemaphoreTake, the mutex being held). -/
def Shared.step (B : Build) (w : Shared) (task : Nat) : TaskStep → Option Shared
  | .beginAssign address nostop =>
    some { w with obj := (w.obj.beginTransmission B address nostop).1 }
  | .beginTake =>
    if !B.useFreeRTOS then some w
    else if w.holder = none then
      some { w with holder := some task, calls := w.calls ++ [(task, BusEvent.take w.obj.port)] }
    else none
  | .write data => some { w with obj := (w.obj.write B data).2 }
  | .endTransmission P =>
    let r := w.obj.endTransmission B P
    some { obj := r.2.1
           holder := if r.2.2.any BusEvent.isGate then Shared.give w.holder task else w.holder
           calls := w.calls ++ r.2.2.map (fun e => (task, e)) }

/-- A schedule: the steps of the tasks in the order in which they run. -/
def Shared.run (B : Build) : Shared → List (Nat × TaskStep) → Option Shared
  | w, [] => some w
  | w, (task, st) :: rest =>
    match w.step B task st with
    | none => none
    | some w1 => Shared.run B w1 rest

/-! ## Sample objects and physical layers -/

/-- A build with two 32-byte arrays (the Arduino Wire size), single-tasking. -/
def wire32 : Build := { txSize := 32, rxSize := 32, useFreeRTOS := false }

/-- The same build with the FreeRTOS gate compiled in. -/
def wire32rtos : Build := { txSize := 32, rxSize := 32, useFreeRTOS := true }

/-- Zeroed memory for an object of the build `wire32`. -/
def zeroMemory : I2C :=
  { port := 0, rxBuffer := List.replicate 32 0, rxBufferIndex := 0, rxBufferLength := 0,
    txAddress := 0, txBuffer := List.replicate 32 0, txBufferIndex := 0, txBufferLength := 0,
    transmitting := false, nostop := false }

/-- A freshly constructed object on bus instance i2c0. -/
def fresh : I2C := I2C.construct false zeroMemory

/-- An object with an open transaction to 0x50 and nothing staged. -/
def opened : I2C := (fresh.beginTransmission wire32 0x50 false).1

/-- An object with an open transaction to 0x50 and the byte 0x10 staged. -/
def staged10 : I2C := (opened.write wire32 0x10).2

/-- A physical layer that accepts every write in full and answers every read
with the bytes `reply` (reporting their number). -/
def accepting (reply : List Byte) : PhysicalLayer :=
  { i2c_write_blocking := fun _ src _ => (src.length : Int)
    i2c_read_blocking := fun _ _ _ => ((reply.length : Int), reply) }

/-- A physical layer on which no device acknowledges. -/
def silent : PhysicalLayer :=
  { i2c_write_blocking := fun _ _ _ => PICO_ERROR_GENERIC
    i2c_read_blocking := fun _ _ _ => (PICO_ERROR_GENERIC, []) }

/-- A physical layer that accepts every write in full and fills every read
completely with the byte 0xA5. -/
def obedient : PhysicalLayer :=
  { i2c_write_blocking := fun _ src _ => (src.length : Int)
    i2c_read_blocking := fun _ len _ => ((len : Int), List.replicate len 0xA5) }

/-- The fresh object after `requestFrom(0x50, 4)` was answered with 1,2,3,4. -/
def received : I2C := (fresh.requestFrom wire32 (accepting [1, 2, 3, 4]) 0x50 4 false).2.1

/-- A sequence of calls: open, stage one byte, request forty bytes, read one. -/
def sampleCalls : List Op :=
  [Op.beginTransmission 0x50 false, Op.write 0x10, Op.requestFrom obedient 0x50 40 false,
    Op.read]

/-- The fresh object shared by tasks, the mutex of its port free. -/
def sharedFresh : Shared := { obj := fresh, holder := none, calls := [] }

/-- Task 0 opens a transaction to 0x50, takes the mutex and stages 0x10. -/
def taskAOpens : List (Nat × TaskStep) :=
  [(0, TaskStep.beginAssign 0x50 false), (0, TaskStep.beginTake), (0, TaskStep.write 0x10)]

/-! ## Auxiliary lemmas -/

theorem take_set_succ {α : Type} (a : α) : ∀ (l : List α) (n : Nat), n < l.length →
    (l.set n a).take (n + 1) = l.take n ++ [a]
  | [], n, h => by simp at h
  | x :: xs, 0, _ => by simp
  | x :: xs, n + 1, h => by
    have h1 : n < xs.length := by simpa using h
    simp [List.set, take_set_succ a xs n h1]

theorem write_reject (B : Build) (s : I2C) (b : Byte)
    (h : s.transmitting = false ∨ B.txSize ≤ s.txBufferLength) : s.write B b = (0, s) := by
  unfold I2C.write
  rcases h with h | h
  · simp [h]
  · simp [h]

theorem write_accept (B : Build) (s : I2C) (b : Byte) (hB : B.txSize ≤ 255)
    (ht : s.transmitting = true) (hn : s.txBufferLength < B.txSize) :
    s.write B b = (1, { s with txBuffer := s.txBuffer.set s.txBufferLength b
                               txBufferLength := s.txBufferLength + 1 }) := by
  unfold I2C.write
  have h1 : (s.txBufferLength + 1) % 256 = s.txBufferLength + 1 := by omega
  simp [ht, hn, h1]

theorem writeLoop_spec (B : Build) (hB : B.txSize ≤ 255) :
    ∀ (data : List Byte) (s : I2C) (i : Nat),
      s.transmitting = true → s.txBuffer.length = B.txSize →
      (I2C.writeLoop B s data i).1 = i + min data.length (B.txSize - s.txBufferLength) ∧
      (I2C.writeLoop B s data i).2.staged
        = s.staged ++ data.take (min data.length (B.txSize - s.txBufferLength)) ∧
      (I2C.writeLoop B s data i).2.txBufferLength
        = s.txBufferLength + min data.length (B.txSize - s.txBufferLength) ∧
      s.sameButTx (I2C.writeLoop B s data i).2
  | [], s, i, _, _ => by simp [I2C.writeLoop, I2C.sameButTx]
  | d :: rest, s, i, ht, hlen => by
    by_cases hn : s.txBufferLength < B.txSize
    · have hw := write_accept B s d hB ht hn
      have ih := writeLoop_spec B hB rest
        { s with txBuffer := s.txBuffer.set s.txBufferLength d
                 txBufferLength := s.txBufferLength + 1 } (i + 1) ht (by simpa using hlen)
      obtain ⟨ih1, ih2, ih3, ih4⟩ := ih
      have hk : min (rest.length + 1) (B.txSize - s.txBufferLength)
          = min rest.length (B.txSize - (s.txBufferLength + 1)) + 1 := by omega
      simp only [I2C.writeLoop, hw, List.length_cons, hk]
      simp only [] at ih1 ih2 ih3 ih4
      refine ⟨?_, ?_, ?_, ?_⟩
      · simp; omega
      · simp only [one_ne_zero, if_false]
        rw [ih2]
        simp only [I2C.staged, List.take_succ_cons]
        rw [take_set_succ d s.txBuffer s.txBufferLength (by omega)]
        simp
      · simp; omega
      · simpa [I2C.sameButTx] using ih4
    · have hw := write_reject B s d (Or.inr (by omega))
      have hk : min (rest.length + 1) (B.txSize - s.txBufferLength) = 0 := by omega
      simp [I2C.writeLoop, hw, hk, I2C.sameButTx]

theorem clamp_eq_min (q c : Nat) : (if q > c then c else q) = min q c := by
  split_ifs <;> omega

theorem requestFrom_proceeds (B : Build) (P : PhysicalLayer) (s : I2C) (address : Byte)
    (quantity : Nat) (nostop : Bool)
    (hw : s.txBufferLength = 0 ∨
      ¬ P.i2c_write_blocking address s.staged s.nostop < (s.txBufferLength : Int)) :
    s.requestFrom B P address quantity nostop
      = I2C.requestFromRead P { s with txBufferLength := 0 } address (min quantity B.rxSize)
          nostop (if s.txBufferLength > 0 then [BusEvent.write address s.staged s.nostop]
            else []) := by
  unfold I2C.requestFrom
  simp only [clamp_eq_min]
  by_cases h0 : s.txBufferLength > 0
  · have h1 : ¬ P.i2c_write_blocking address s.staged s.nostop < (s.txBufferLength : Int) := by
      rcases hw with hw | hw
      · omega
      · exact hw
    simp [h0, h1]
  · have h1 : s.txBufferLength = 0 := by omega
    have h2 : { s with txBufferLength := 0 } = s := by
      cases s
      simp_all
    simp [h0, h2]

theorem requestFrom_aborts (B : Build) (P : PhysicalLayer) (s : I2C) (address : Byte)
    (quantity : Nat) (nostop : Bool) (hN : 0 < s.txBufferLength)
    (hlt : P.i2c_write_blocking address s.staged s.nostop < (s.txBufferLength : Int)) :
    s.requestFrom B P address quantity nostop
      = (0, { s with rxBufferLength := 0, rxBufferIndex := 0 },
          [BusEvent.write address s.staged s.nostop]) := by
  unfold I2C.requestFrom
  simp [hN, hlt]

theorem read_advances (s : I2C) (h : s.rxBufferIndex < s.rxBufferLength)
    (hL : s.rxBufferLength ≤ 255) :
    s.read = (((s.rxBuffer.getD s.rxBufferIndex 0).val : Int),
      { s with rxBufferIndex := s.rxBufferIndex + 1 }) := by
  unfold I2C.read
  have h1 : (s.rxBufferIndex + 1) % 256 = s.rxBufferIndex + 1 := by omega
  simp [h, h1]

theorem read_empty (s : I2C) (h : ¬ s.rxBufferIndex < s.rxBufferLength) : s.read = (-1, s) := by
  unfold I2C.read
  simp [h]

theorem readMany_spec : ∀ (n : Nat) (s : I2C), s.rxBufferLength ≤ 255 →
    s.rxBufferIndex + n ≤ s.rxBufferLength →
    s.readMany n
      = ((List.range n).map (fun j =>
            ((s.rxBufferLength : Int) - ((s.rxBufferIndex + j : Nat) : Int),
             ((s.rxBuffer.getD (s.rxBufferIndex + j) 0).val : Int))),
         { s with rxBufferIndex := s.rxBufferIndex + n })
  | 0, s, _, _ => by simp [I2C.readMany]
  | n + 1, s, hL, hn => by
    have hr := read_advances s (by omega) hL
    have ih := readMany_spec n { s with rxBufferIndex := s.rxBufferIndex + 1 } hL
      (by simp only []; omega)
    dsimp only at ih
    simp only [I2C.readMany, hr, ih, List.range_succ_eq_map, List.map_cons, List.map_map,
      I2C.available]
    refine Prod.ext ?_ ?_
    · dsimp only
      have e : ∀ j, s.rxBufferIndex + 1 + j = s.rxBufferIndex + Nat.succ j := by
        intro j
        omega
      simp only [Nat.add_zero, Function.comp_def, e]
    · dsimp only
      have e : s.rxBufferIndex + 1 + n = s.rxBufferIndex + (n + 1) := by omega
      rw [e]

theorem getD_append_range (d rest : List Byte) :
    (List.range d.length).map (fun j => (d ++ rest).getD j 0) = d := by
  apply List.ext_getElem
  · simp
  · intro i h1 h2
    simp at h1
    simp [List.getD_eq_getElem?_getD, List.getElem?_append_left, h1]


theorem requestFrom_delivers (B : Build) (P : PhysicalLayer) (s : I2C) (address : Byte)
    (quantity : Nat) (nostop : Bool) (d : List Byte)
    (hB : B.rxSize ≤ 255) (hM : d.length ≤ min quantity B.rxSize)
    (hw : s.txBufferLength = 0 ∨
      P.i2c_write_blocking address s.staged s.nostop = (s.txBufferLength : Int))
    (hr : P.i2c_read_blocking address (min quantity B.rxSize) nostop = ((d.length : Int), d)) :
    (s.requestFrom B P address quantity nostop).1 = d.length ∧
    (s.requestFrom B P address quantity nostop).2.1.rxBuffer = d ++ s.rxBuffer.drop d.length ∧
    (s.requestFrom B P address quantity nostop).2.1.rxBufferLength = d.length ∧
    (s.requestFrom B P address quantity nostop).2.1.rxBufferIndex = 0 := by
  have hp := requestFrom_proceeds B P s address quantity nostop
    (hw.imp id (fun h => by rw [h]; exact lt_irrefl _))
  have h1 : ¬ ((d.length : Int) < 0) := by omega
  have h2 : ((d.length : Int) % 256).toNat = d.length := by omega
  have h3 : d.take (min quantity B.rxSize) = d := List.take_of_length_le hM
  rw [hp]
  simp only [I2C.requestFromRead, hr, h1, h2, h3, if_false, store, and_self]

theorem drain_spec (t : I2C) (d rest : List Byte) (hbuf : t.rxBuffer = d ++ rest)
    (hlen : t.rxBufferLength = d.length) (hidx : t.rxBufferIndex = 0) (hL : d.length ≤ 255) :
    t.available = (d.length : Int) ∧
    (t.readMany d.length).1.map Prod.snd = d.map (fun b => (b.val : Int)) ∧
    (t.readMany d.length).1.map Prod.fst
      = (List.range d.length).map (fun (i : Nat) => (d.length : Int) - (i : Int)) ∧
    (t.readMany d.length).2.available = 0 ∧
    (t.readMany d.length).2.read.1 = -1 ∧
    (t.readMany d.length).2.read.2.available = 0 := by
  have hm := readMany_spec d.length t (by omega) (by omega)
  have he := read_empty { t with rxBufferIndex := t.rxBufferIndex + d.length }
    (by dsimp only; omega)
  rw [hm]
  dsimp only
  rw [he]
  dsimp only
  simp only [I2C.available, hlen, hidx, hbuf, List.map_map, Function.comp_def]
  have hd := congrArg (List.map (fun b : Byte => (b.val : Int))) (getD_append_range d rest)
  simp only [List.map_map, Function.comp_def] at hd
  simp only [Nat.zero_add, Nat.cast_zero, sub_zero, lt_self_iff_false, if_false, sub_self,
    List.map_map, Function.comp_def, hd, true_and, and_true, and_self]

/-! ## The staging operations -/

/-- C3: in a build whose transmit array the uint8_t counter can count
(`sizeof(_txBuffer) ≤ 255`), on an object whose `_txBuffer` has its declared
size: `write(b)` returns 0 and leaves the object unchanged when
`_transmitting` is false or the buffer is full (`_txBufferLength` has reached
the capacity); otherwise it returns 1, stores `b` in the cell at the old
length, the staged bytes become the old staged bytes followed by `b`, the
length grows by exactly 1 and no other member changes. -/
theorem write_byte_contract (B : Build) (s : I2C) (b : Byte)
    (hB : B.txSize ≤ 255) (hbuf : s.txBuffer.length = B.txSize) :
    (s.transmitting = false ∨ B.txSize ≤ s.txBufferLength → s.write B b = (0, s)) ∧
    (¬ (s.transmitting = false ∨ B.txSize ≤ s.txBufferLength) →
      (s.write B b).1 = 1 ∧
      (s.write B b).2.txBuffer = s.txBuffer.set s.txBufferLength b ∧
      (s.write B b).2.staged = s.staged ++ [b] ∧
      (s.write B b).2.txBufferLength = s.txBufferLength + 1 ∧
      s.sameButTx (s.write B b).2) := by
  refine ⟨write_reject B s b, ?_⟩
  intro h
  have ht : s.transmitting = true := by
    cases hts : s.transmitting
    · exact absurd (Or.inl hts) h
    · rfl
  have hn : s.txBufferLength < B.txSize := by
    by_contra hc
    exact h (Or.inr (by omega))
  rw [write_accept B s b hB ht hn]
  refine ⟨rfl, rfl, ?_, rfl, ?_⟩
  · simp only [I2C.staged]
    exact take_set_succ b s.txBuffer s.txBufferLength (by omega)
  · simp [I2C.sameButTx]

/-- Witness of C3: on the opened sample object the byte 0x10 is accepted and
becomes the only staged byte. -/
theorem write_byte_contract_witness :
    wire32.txSize ≤ 255 ∧ opened.txBuffer.length = wire32.txSize ∧
    (opened.write wire32 0x10).1 = 1 ∧ (opened.write wire32 0x10).2.staged = [0x10] :=
  have h := (write_byte_contract wire32 opened 0x10 (by decide) (by decide)).2 (by decide)
  ⟨by decide, by decide, h.1, by simpa [I2C.staged, opened, fresh, I2C.construct,
    I2C.beginTransmission] using h.2.2.1⟩

/-- C4: in a build whose transmit array the uint8_t counter can count, on an
object whose `_txBuffer` has its declared size: `write(data, count)` returns 0
and changes nothing when `_transmitting` is false; when it is true it returns
`k = min(count, capacity - _txBufferLength)`, the staged bytes become the old
staged bytes followed by the first `k` bytes of `data` in order, the length
grows by `k` (so it stays within the capacity if it was), and no other member
changes. -/
theorem write_bytes_contract (B : Build) (s : I2C) (data : List Byte)
    (hB : B.txSize ≤ 255) (hbuf : s.txBuffer.length = B.txSize) :
    (s.transmitting = false → s.writeBytes B data = (0, s)) ∧
    (s.transmitting = true →
      (s.writeBytes B data).1 = min data.length (B.txSize - s.txBufferLength) ∧
      (s.writeBytes B data).2.staged
        = s.staged ++ data.take (min data.length (B.txSize - s.txBufferLength)) ∧
      (s.writeBytes B data).2.txBufferLength
        = s.txBufferLength + min data.length (B.txSize - s.txBufferLength) ∧
      (s.txBufferLength ≤ B.txSize → (s.writeBytes B data).2.txBufferLength ≤ B.txSize) ∧
      s.sameButTx (s.writeBytes B data).2) := by
  constructor
  · intro h
    simp [I2C.writeBytes, h]
  · intro h
    have hl := writeLoop_spec B hB data s 0 h hbuf
    have he : s.writeBytes B data = I2C.writeLoop B s data 0 := by
      simp [I2C.writeBytes, h]
    rw [he]
    obtain ⟨h1, h2, h3, h4⟩ := hl
    refine ⟨by simpa using h1, h2, h3, ?_, h4⟩
    intro hle
    rw [h3]
    omega

/-- Witness of C4: three bytes offered to the opened sample object are all
accepted. -/
theorem write_bytes_contract_witness :
    wire32.txSize ≤ 255 ∧ opened.txBuffer.length = wire32.txSize ∧
    opened.transmitting = true ∧ (opened.writeBytes wire32 [1, 2, 3]).1 = 3 :=
  ⟨by decide, by decide, by decide,
    ((write_bytes_contract wire32 opened [1, 2, 3] (by decide) (by decide)).2 (by decide)).1⟩

/-- C5: from every object, for every address and hold flag,
`beginTransmission(address, holdBus)` leaves no staged byte
(`_txBufferLength = 0`), records the address and the flag, sets
`_transmitting`, and leaves `_rxBuffer`, `_rxBufferLength` and
`_rxBufferIndex` as they were. -/
theorem beginTransmission_contract (B : Build) (s : I2C) (address : Byte) (holdBus : Bool) :
    (s.beginTransmission B address holdBus).1.txBufferLength = 0 ∧
    (s.beginTransmission B address holdBus).1.staged = [] ∧
    (s.beginTransmission B address holdBus).1.txAddress = address ∧
    (s.beginTransmission B address holdBus).1.nostop = holdBus ∧
    (s.beginTransmission B address holdBus).1.transmitting = true ∧
    (s.beginTransmission B address holdBus).1.rxBuffer = s.rxBuffer ∧
    (s.beginTransmission B address holdBus).1.rxBufferLength = s.rxBufferLength ∧
    (s.beginTransmission B address holdBus).1.rxBufferIndex = s.rxBufferIndex := by
  simp [I2C.beginTransmission, I2C.staged]

/-! ## Committing a transaction -/

/-- C6: on every object with `_transmitting` false, `endTransmission()`
returns 4, makes no call at all (no blocking write, no release of the gate)
and leaves the object unchanged. -/
theorem endTransmission_not_transmitting (B : Build) (P : PhysicalLayer) (s : I2C)
    (h : s.transmitting = false) :
    s.endTransmission B P = (4, s, []) := by
  simp [I2C.endTransmission, h]

/-- Witness of C6: the freshly constructed object, FreeRTOS build. -/
theorem endTransmission_not_transmitting_witness :
    fresh.transmitting = false ∧ fresh.endTransmission wire32rtos silent = (4, fresh, []) :=
  ⟨by decide, endTransmission_not_transmitting wire32rtos silent fresh (by decide)⟩

/-- C7: on every object with `_transmitting` true, with `n = _txBufferLength`
and `r` the result of the blocking write of the staged bytes:
`endTransmission()` returns 2 if `r` is PICO_ERROR_GENERIC, 3 if `r` is not
PICO_ERROR_GENERIC and `r < n`, and 0 if `r = n`; the result is always one of
0, 2, 3; and the calls contain exactly one blocking write, of the staged bytes
to `_txAddress` with the flag `_nostop`. -/
theorem endTransmission_status (B : Build) (P : PhysicalLayer) (s : I2C)
    (h : s.transmitting = true) :
    (P.i2c_write_blocking s.txAddress s.staged s.nostop = PICO_ERROR_GENERIC →
      (s.endTransmission B P).1 = 2) ∧
    (P.i2c_write_blocking s.txAddress s.staged s.nostop ≠ PICO_ERROR_GENERIC →
      P.i2c_write_blocking s.txAddress s.staged s.nostop < (s.txBufferLength : Int) →
      (s.endTransmission B P).1 = 3) ∧
    (P.i2c_write_blocking s.txAddress s.staged s.nostop = (s.txBufferLength : Int) →
      (s.endTransmission B P).1 = 0) ∧
    ((s.endTransmission B P).1 = 0 ∨ (s.endTransmission B P).1 = 2 ∨
      (s.endTransmission B P).1 = 3) ∧
    (s.endTransmission B P).2.2.filter BusEvent.isWrite
      = [BusEvent.write s.txAddress s.staged s.nostop] := by
  have hn : (0 : Int) ≤ (s.txBufferLength : Int) := Int.ofNat_nonneg _
  refine ⟨?_, ?_, ?_, ?_, ?_⟩
  · intro hr
    simp [I2C.endTransmission, h, hr]
  · intro hr hlt
    simp [I2C.endTransmission, h, hr, hlt]
  · intro hr
    have hne : (s.txBufferLength : Int) ≠ PICO_ERROR_GENERIC := by
      unfold PICO_ERROR_GENERIC
      omega
    simp [I2C.endTransmission, h, hr, hne]
  · simp only [I2C.endTransmission, h]
    split_ifs <;> simp_all
  · simp only [I2C.endTransmission, h]
    split_ifs <;> simp_all [BusEvent.isWrite]

/-- Witness of C7: the sample object with one staged byte, on a layer that
accepts the write. -/
theorem endTransmission_status_witness :
    staged10.transmitting = true ∧ (staged10.endTransmission wire32 (accepting [])).1 = 0 :=
  ⟨by decide, (endTransmission_status wire32 (accepting []) staged10 (by decide)).2.2.1
    (by decide)⟩

/-! ## Requesting and draining bytes -/

/-- C8: in a build whose receive array the uint8_t counters can count
(`sizeof(_rxBuffer) ≤ 255`), for every object with `N = _txBufferLength`
staged bytes and every reply `d` of `M = d.length ≤ min(quantity, capacity)`
bytes: if `N = 0` or the write phase reports all `N` bytes sent, and the
blocking read reports `M` and stores `d`, then `requestFrom` returns `M`,
`available()` is `M`, the next `M` calls of `read()` return the bytes of `d`
in order, `available()` before the i-th of them (counted from 0) is `M - i`,
the following `read()` returns -1, and `available()` is then 0. -/
theorem requestFrom_then_drain (B : Build) (P : PhysicalLayer) (s : I2C) (address : Byte)
    (quantity : Nat) (nostop : Bool) (d : List Byte)
    (hB : B.rxSize ≤ 255) (hM : d.length ≤ min quantity B.rxSize)
    (hw : s.txBufferLength = 0 ∨
      P.i2c_write_blocking address s.staged s.nostop = (s.txBufferLength : Int))
    (hr : P.i2c_read_blocking address (min quantity B.rxSize) nostop = ((d.length : Int), d)) :
    (s.requestFrom B P address quantity nostop).1 = d.length ∧
    (s.requestFrom B P address quantity nostop).2.1.available = (d.length : Int) ∧
    (((s.requestFrom B P address quantity nostop).2.1.readMany d.length).1.map Prod.snd
      = d.map (fun b => (b.val : Int))) ∧
    (((s.requestFrom B P address quantity nostop).2.1.readMany d.length).1.map Prod.fst
      = (List.range d.length).map (fun (i : Nat) => (d.length : Int) - (i : Int))) ∧
    ((s.requestFrom B P address quantity nostop).2.1.readMany d.length).2.read.1 = -1 ∧
    ((s.requestFrom B P address quantity nostop).2.1.readMany d.length).2.read.2.available
      = 0 := by
  obtain ⟨h1, h2, h3, h4⟩ := requestFrom_delivers B P s address quantity nostop d hB hM hw hr
  obtain ⟨g1, g2, g3, _, g5, g6⟩ := drain_spec (s.requestFrom B P address quantity nostop).2.1 d
    (s.rxBuffer.drop d.length) h2 h3 h4 (by omega)
  exact ⟨h1, g1, g2, g3, g5, g6⟩

/-- Witness of C8: a fresh object reads four bytes. -/
theorem requestFrom_then_drain_witness :
    wire32.rxSize ≤ 255 ∧ [1, 2, 3, (4 : Byte)].length ≤ min 4 wire32.rxSize ∧
    fresh.txBufferLength = 0 ∧
    (fresh.requestFrom wire32 (accepting [1, 2, 3, 4]) 0x50 4 false).1 = 4 ∧
    ((fresh.requestFrom wire32 (accepting [1, 2, 3, 4]) 0x50 4 false).2.1.readMany 4).1.map
      Prod.snd = [1, 2, 3, 4] :=
  have h := requestFrom_then_drain wire32 (accepting [1, 2, 3, 4]) fresh 0x50 4 false
    [1, 2, 3, 4] (by decide) (by decide) (Or.inl (by decide)) rfl
  ⟨by decide, by decide, by decide, h.1, h.2.2.1⟩

/-- C9: on every object with `N = _txBufferLength > 0` staged bytes, if the
blocking write inside `requestFrom` returns less than `N` (a short count or a
negative error), then `requestFrom` returns 0, its only call is that write (no
blocking read), `_rxBufferLength` and `_rxBufferIndex` are 0 afterwards,
`available()` returns 0 and `read()` returns -1. -/
theorem requestFrom_short_write (B : Build) (P : PhysicalLayer) (s : I2C) (address : Byte)
    (quantity : Nat) (nostop : Bool) (hN : 0 < s.txBufferLength)
    (hshort : P.i2c_write_blocking address s.staged s.nostop < (s.txBufferLength : Int)) :
    (s.requestFrom B P address quantity nostop).1 = 0 ∧
    (s.requestFrom B P address quantity nostop).2.2
      = [BusEvent.write address s.staged s.nostop] ∧
    (s.requestFrom B P address quantity nostop).2.2.filter BusEvent.isRead = [] ∧
    (s.requestFrom B P address quantity nostop).2.1.rxBufferLength = 0 ∧
    (s.requestFrom B P address quantity nostop).2.1.rxBufferIndex = 0 ∧
    (s.requestFrom B P address quantity nostop).2.1.available = 0 ∧
    (s.requestFrom B P address quantity nostop).2.1.read.1 = -1 := by
  rw [requestFrom_aborts B P s address quantity nostop hN hshort]
  simp [BusEvent.isRead, I2C.available, I2C.read]

/-- Witness of C9: one staged byte, no device acknowledges (the write returns
PICO_ERROR_GENERIC). -/
theorem requestFrom_short_write_witness :
    0 < staged10.txBufferLength ∧
    silent.i2c_write_blocking 0x50 staged10.staged staged10.nostop
      < (staged10.txBufferLength : Int) ∧
    (staged10.requestFrom wire32 silent 0x50 4 false).1 = 0 :=
  ⟨by decide, by decide,
    (requestFrom_short_write wire32 silent staged10 0x50 4 false (by decide) (by decide)).1⟩

/-- C10: for every quantity, the blocking read that `requestFrom` issues asks
for exactly `min(quantity, sizeof(_rxBuffer))` bytes (it issues that one read
unless the write phase aborts, and then none); and if the physical layer never
reports more bytes read than it was asked for, the returned value and the
stored `_rxBufferLength` exceed neither the capacity nor the quantity. -/
theorem requestFrom_clamps (B : Build) (P : PhysicalLayer) (s : I2C) (address : Byte)
    (quantity : Nat) (nostop : Bool)
    (hP : ∀ a len ns, (P.i2c_read_blocking a len ns).1 ≤ (len : Int)) :
    (s.requestFrom B P address quantity nostop).2.2.filter BusEvent.isRead
      = (if 0 < s.txBufferLength ∧
            P.i2c_write_blocking address s.staged s.nostop < (s.txBufferLength : Int)
          then [] else [BusEvent.read address (min quantity B.rxSize) nostop]) ∧
    (s.requestFrom B P address quantity nostop).1 ≤ B.rxSize ∧
    (s.requestFrom B P address quantity nostop).1 ≤ quantity ∧
    (s.requestFrom B P address quantity nostop).2.1.rxBufferLength ≤ B.rxSize ∧
    (s.requestFrom B P address quantity nostop).2.1.rxBufferLength ≤ quantity := by
  by_cases hab : 0 < s.txBufferLength ∧
      P.i2c_write_blocking address s.staged s.nostop < (s.txBufferLength : Int)
  · rw [requestFrom_aborts B P s address quantity nostop hab.1 hab.2]
    simp [hab, BusEvent.isRead]
  · have hw : s.txBufferLength = 0 ∨
        ¬ P.i2c_write_blocking address s.staged s.nostop < (s.txBufferLength : Int) := by
      by_cases h0 : 0 < s.txBufferLength
      · exact Or.inr (fun h => hab ⟨h0, h⟩)
      · exact Or.inl (by omega)
    rw [requestFrom_proceeds B P s address quantity nostop hw]
    have hle := hP address (min quantity B.rxSize) nostop
    have hv : (if (P.i2c_read_blocking address (min quantity B.rxSize) nostop).1 < 0 then 0
        else ((P.i2c_read_blocking address (min quantity B.rxSize) nostop).1 % 256).toNat)
        ≤ min quantity B.rxSize := by
      split_ifs <;> omega
    have h1 := le_trans hv (min_le_right _ _)
    have h2 := le_trans hv (min_le_left _ _)
    simp only [I2C.requestFromRead, if_neg hab]
    refine ⟨?_, h1, h2, h1, h2⟩
    split_ifs <;> simp [BusEvent.isRead, BusEvent.isWrite]

/-- Witness of C10: forty bytes requested from an obedient layer are clamped to
the 32-byte array. -/
theorem requestFrom_clamps_witness :
    (∀ a len ns, (obedient.i2c_read_blocking a len ns).1 ≤ (len : Int)) ∧
    (fresh.requestFrom wire32 obedient 0x50 40 false).1 ≤ wire32.rxSize :=
  ⟨fun _ _ _ => le_refl _,
    (requestFrom_clamps wire32 obedient fresh 0x50 40 false (fun _ _ _ => le_refl _)).2.1⟩

/-! ## The two scenarios of the specification -/

/-- C1 (the code at the scenario): after `beginTransmission(0x50);
write(0x10); endTransmission()` on a layer that accepts every write,
`endTransmission` returns 0 but leaves the byte 0x10 staged, so the following
`requestFrom(0x50, 4)` first issues a blocking write of 0x10 and only then the
blocking read; with the reply 1,2,3,4 `available()` is 4 and five calls of
`read()` return 1, 2, 3, 4, -1. -/
theorem scenario_commit_then_request :
    (staged10.endTransmission wire32 (accepting [1, 2, 3, 4])).1 = 0 ∧
    (staged10.endTransmission wire32 (accepting [1, 2, 3, 4])).2.1.staged = [0x10] ∧
    ((staged10.endTransmission wire32 (accepting [1, 2, 3, 4])).2.1.requestFrom wire32
        (accepting [1, 2, 3, 4]) 0x50 4 false).2.2
      = [BusEvent.write 0x50 [0x10] false, BusEvent.read 0x50 4 false] ∧
    ((staged10.endTransmission wire32 (accepting [1, 2, 3, 4])).2.1.requestFrom wire32
        (accepting [1, 2, 3, 4]) 0x50 4 false).2.1.available = 4 ∧
    (((staged10.endTransmission wire32 (accepting [1, 2, 3, 4])).2.1.requestFrom wire32
        (accepting [1, 2, 3, 4]) 0x50 4 false).2.1.readMany 5).1.map Prod.snd
      = [1, 2, 3, 4, -1] := by
  decide

/-- C2 (the code at the scenario): after `beginTransmission(0x50)` with the
hold flag false and `write(0x00)`, `requestFrom(0x50, 2, false)` issues the
blocking write of the staged byte with `nostop = false` (the bus is not held),
then a blocking read of 2 bytes; with a one-byte reply `available()` is 1. -/
theorem scenario_register_select :
    ((opened.write wire32 0x00).2.requestFrom wire32 (accepting [7]) 0x50 2 false).2.2
      = [BusEvent.write 0x50 [0x00] false, BusEvent.read 0x50 2 false] ∧
    ((opened.write wire32 0x00).2.requestFrom wire32 (accepting [7]) 0x50 2 false).2.1.available
      = 1 := by
  decide

/-! ## Auxiliary lemmas: frames, the bulk read, sequences of calls, the gate -/

theorem write_sameButTx (B : Build) (s : I2C) (b : Byte) : s.sameButTx (s.write B b).2 := by
  unfold I2C.write
  split_ifs <;> simp [I2C.sameButTx]

theorem write_tx_le (B : Build) (s : I2C) (b : Byte) (h : s.txBufferLength ≤ B.txSize) :
    (s.write B b).2.txBufferLength ≤ B.txSize := by
  unfold I2C.write
  split_ifs with hc
  · exact h
  · simp only [Bool.or_eq_true, Bool.not_eq_true', decide_eq_true_eq, not_or] at hc
    have := Nat.mod_le (s.txBufferLength + 1) 256
    simp only []
    omega

theorem sameButTx_trans {s t u : I2C} (h1 : s.sameButTx t) (h2 : t.sameButTx u) :
    s.sameButTx u := by
  unfold I2C.sameButTx at *
  obtain ⟨a1, a2, a3, a4, a5, a6, a7, a8⟩ := h1
  obtain ⟨b1, b2, b3, b4, b5, b6, b7, b8⟩ := h2
  exact ⟨b1.trans a1, b2.trans a2, b3.trans a3, b4.trans a4, b5.trans a5, b6.trans a6,
    b7.trans a7, b8.trans a8⟩

theorem writeLoop_frame (B : Build) : ∀ (data : List Byte) (s : I2C) (i : Nat),
    s.sameButTx (I2C.writeLoop B s data i).2 ∧
    (s.txBufferLength ≤ B.txSize → (I2C.writeLoop B s data i).2.txBufferLength ≤ B.txSize)
  | [], s, i => by simp [I2C.writeLoop, I2C.sameButTx]
  | d :: rest, s, i => by
    have hw := write_sameButTx B s d
    have hl := write_tx_le B s d
    have ih := writeLoop_frame B rest (s.write B d).2 (i + 1)
    simp only [I2C.writeLoop]
    split_ifs
    · exact ⟨hw, hl⟩
    · exact ⟨sameButTx_trans hw ih.1, fun h => ih.2 (hl h)⟩

theorem writeBytes_frame (B : Build) (s : I2C) (data : List Byte) :
    s.sameButTx (s.writeBytes B data).2 ∧
    (s.txBufferLength ≤ B.txSize → (s.writeBytes B data).2.txBufferLength ≤ B.txSize) := by
  unfold I2C.writeBytes
  split_ifs
  · simp [I2C.sameButTx]
  · exact writeLoop_frame B data s 0

theorem readLoop_state : ∀ (n i : Nat) (s : I2C) (buffer : List Byte),
    s.rxBufferLength < 256 → s.rxBufferIndex ≤ s.rxBufferLength →
    (I2C.readLoop n i s buffer).1
      = { s with rxBufferIndex := s.rxBufferIndex + min n (s.rxBufferLength - s.rxBufferIndex) }
  | 0, i, s, buffer, _, _ => by simp [I2C.readLoop]
  | n + 1, i, s, buffer, hlen, hidx => by
    by_cases h : s.rxBufferIndex < s.rxBufferLength
    · have h1 : (s.rxBufferIndex + 1) % 256 = s.rxBufferIndex + 1 := by omega
      have ih := readLoop_state n (i + 1) { s with rxBufferIndex := s.rxBufferIndex + 1 }
        (buffer.set i (s.rxBuffer.getD s.rxBufferIndex 0)) hlen (by dsimp only; omega)
      dsimp only at ih
      simp only [I2C.readLoop, h, if_true, h1, ih]
      have e : s.rxBufferIndex + 1 + min n (s.rxBufferLength - (s.rxBufferIndex + 1))
          = s.rxBufferIndex + min (n + 1) (s.rxBufferLength - s.rxBufferIndex) := by omega
      rw [e]
    · have e : min (n + 1) (s.rxBufferLength - s.rxBufferIndex) = 0 := by omega
      simp [I2C.readLoop, h, e]

theorem drop_set_succ {α : Type} (a : α) : ∀ (l : List α) (n m : Nat), n < m →
    (l.set n a).drop m = l.drop m
  | [], n, m, _ => by simp
  | x :: xs, 0, m + 1, _ => by simp
  | x :: xs, n + 1, m + 1, h => by
    simp [List.set, drop_set_succ a xs n m (by omega)]

theorem readLoop_buffer : ∀ (n i : Nat) (s : I2C) (buffer : List Byte),
    s.rxBufferLength < 256 → s.rxBufferIndex ≤ s.rxBufferLength →
    i + min n (s.rxBufferLength - s.rxBufferIndex) ≤ buffer.length →
    (I2C.readLoop n i s buffer).2
      = buffer.take i
        ++ (List.range (min n (s.rxBufferLength - s.rxBufferIndex))).map
            (fun j => s.rxBuffer.getD (s.rxBufferIndex + j) 0)
        ++ buffer.drop (i + min n (s.rxBufferLength - s.rxBufferIndex))
  | 0, i, s, buffer, _, _, _ => by simp [I2C.readLoop]
  | n + 1, i, s, buffer, hlen, hidx, hroom => by
    by_cases h : s.rxBufferIndex < s.rxBufferLength
    · have h1 : (s.rxBufferIndex + 1) % 256 = s.rxBufferIndex + 1 := by omega
      have hk : min (n + 1) (s.rxBufferLength - s.rxBufferIndex)
          = min n (s.rxBufferLength - (s.rxBufferIndex + 1)) + 1 := by omega
      have ih := readLoop_buffer n (i + 1) { s with rxBufferIndex := s.rxBufferIndex + 1 }
        (buffer.set i (s.rxBuffer.getD s.rxBufferIndex 0)) hlen (by dsimp only; omega)
        (by simp only [List.length_set]; omega)
      dsimp only at ih
      simp only [I2C.readLoop, h, if_true, h1, ih, hk]
      rw [take_set_succ _ buffer i (by omega), drop_set_succ _ buffer i _ (by omega),
        List.range_succ_eq_map]
      have e : ∀ j, s.rxBufferIndex + 1 + j = s.rxBufferIndex + Nat.succ j := by
        intro j
        omega
      have e2 : i + 1 + min n (s.rxBufferLength - (s.rxBufferIndex + 1))
          = i + (min n (s.rxBufferLength - (s.rxBufferIndex + 1)) + 1) := by omega
      simp only [List.map_cons, List.map_map, Function.comp_def, e, e2, Nat.add_zero,
        List.append_assoc, List.singleton_append, List.cons_append, List.nil_append]
    · have e : min (n + 1) (s.rxBufferLength - s.rxBufferIndex) = 0 := by omega
      simp [I2C.readLoop, h, e]

theorem construct_bounded (B : Build) (isI2c1 : Bool) (mem : I2C) :
    (I2C.construct isI2c1 mem).bounded B := by
  simp [I2C.construct, I2C.bounded]

theorem requestFrom_bounded (B : Build) (P : PhysicalLayer) (s : I2C) (address : Byte)
    (quantity : Nat) (nostop : Bool) (hP : P.readsWithinRequest) (hb : s.bounded B) :
    (s.requestFrom B P address quantity nostop).2.1.bounded B ∧
    (s.requestFrom B P address quantity nostop).2.1.rxBufferIndex = 0 := by
  obtain ⟨b1, b2, b3, b4⟩ := hb
  by_cases hab : 0 < s.txBufferLength ∧
      P.i2c_write_blocking address s.staged s.nostop < (s.txBufferLength : Int)
  · rw [requestFrom_aborts B P s address quantity nostop hab.1 hab.2]
    simp [I2C.bounded, b1]
  · have hw : s.txBufferLength = 0 ∨
        ¬ P.i2c_write_blocking address s.staged s.nostop < (s.txBufferLength : Int) := by
      by_cases h0 : 0 < s.txBufferLength
      · exact Or.inr (fun h => hab ⟨h0, h⟩)
      · exact Or.inl (by omega)
    rw [requestFrom_proceeds B P s address quantity nostop hw]
    have hle := hP address (min quantity B.rxSize) nostop
    have hv : (if (P.i2c_read_blocking address (min quantity B.rxSize) nostop).1 < 0 then 0
        else ((P.i2c_read_blocking address (min quantity B.rxSize) nostop).1 % 256).toNat)
        ≤ min quantity B.rxSize ∧
        (if (P.i2c_read_blocking address (min quantity B.rxSize) nostop).1 < 0 then 0
        else ((P.i2c_read_blocking address (min quantity B.rxSize) nostop).1 % 256).toNat)
        < 256 := by
      split_ifs <;> omega
    have h1 := le_trans hv.1 (min_le_right _ _)
    simp only [I2C.requestFromRead, I2C.bounded]
    exact ⟨⟨Nat.zero_le _, Nat.zero_le _, h1, hv.2⟩, trivial⟩

theorem step_bounded (B : Build) (s : I2C) (op : Op) (hl : op.lawful) (hb : s.bounded B) :
    (s.step B op).bounded B := by
  obtain ⟨b1, b2, b3, b4⟩ := hb
  cases op with
  | beginTransmission address nostop =>
    simp [I2C.step, I2C.beginTransmission, I2C.bounded, b2, b3, b4]
  | write data =>
    obtain ⟨_, f2, f3, f4, _⟩ := write_sameButTx B s data
    have ht := write_tx_le B s data b1
    simp only [I2C.step, I2C.bounded, f2, f3, f4]
    exact ⟨ht, b2, b3, b4⟩
  | writeBytes data =>
    obtain ⟨⟨_, f2, f3, f4, _⟩, ht⟩ := writeBytes_frame B s data
    simp only [I2C.step, I2C.bounded, f2, f3, f4]
    exact ⟨ht b1, b2, b3, b4⟩
  | endTransmission P =>
    simp only [I2C.step, I2C.endTransmission]
    split_ifs <;> exact ⟨b1, b2, b3, b4⟩
  | requestFrom P address quantity nostop =>
    exact (requestFrom_bounded B P s address quantity nostop hl ⟨b1, b2, b3, b4⟩).1
  | available => exact ⟨b1, b2, b3, b4⟩
  | read =>
    simp only [I2C.step, I2C.read]
    split_ifs with h
    · have h1 : (s.rxBufferIndex + 1) % 256 = s.rxBufferIndex + 1 := by omega
      simp only [I2C.bounded, h1]
      exact ⟨b1, h, b3, b4⟩
    · exact ⟨b1, b2, b3, b4⟩
  | readInto buffer len =>
    simp only [I2C.step, I2C.readInto, readLoop_state len 0 s buffer b4 b2, I2C.bounded]
    exact ⟨b1, by omega, b3, b4⟩

theorem run_bounded (B : Build) : ∀ (ops : List Op) (s : I2C),
    (∀ op ∈ ops, op.lawful) → s.bounded B → (s.run B ops).bounded B
  | [], s, _, hb => by simpa [I2C.run] using hb
  | op :: rest, s, hl, hb => by
    have h1 := step_bounded B s op (hl op (by simp)) hb
    have h2 := run_bounded B rest (s.step B op) (fun o ho => hl o (by simp [ho])) h1
    simpa [I2C.run] using h2

theorem step_cursor (B : Build) (s : I2C) (op : Op) (hb : s.bounded B) :
    (op.isRead = true → s.rxBufferIndex ≤ (s.step B op).rxBufferIndex) ∧
    (op.isRequestFrom = true → (s.step B op).rxBufferIndex = 0) ∧
    (op.isRead = false → op.isRequestFrom = false →
      (s.step B op).rxBufferIndex = s.rxBufferIndex) := by
  obtain ⟨b1, b2, b3, b4⟩ := hb
  cases op with
  | beginTransmission address nostop =>
    simp [I2C.step, I2C.beginTransmission, Op.isRead, Op.isRequestFrom]
  | write data =>
    obtain ⟨_, _, f3, _⟩ := write_sameButTx B s data
    simp [I2C.step, Op.isRead, Op.isRequestFrom, f3]
  | writeBytes data =>
    obtain ⟨⟨_, _, f3, _⟩, _⟩ := writeBytes_frame B s data
    simp [I2C.step, Op.isRead, Op.isRequestFrom, f3]
  | endTransmission P =>
    simp only [I2C.step, I2C.endTransmission, Op.isRead, Op.isRequestFrom]
    split_ifs <;> simp
  | requestFrom P address quantity nostop =>
    have h0 : (s.requestFrom B P address quantity nostop).2.1.rxBufferIndex = 0 := by
      simp only [I2C.requestFrom, I2C.requestFromRead]
      split_ifs <;> rfl
    simp [I2C.step, Op.isRead, Op.isRequestFrom, h0]
  | available => simp [I2C.step, Op.isRead, Op.isRequestFrom]
  | read =>
    simp only [I2C.step, I2C.read, Op.isRead, Op.isRequestFrom]
    split_ifs with h
    · have h1 : (s.rxBufferIndex + 1) % 256 = s.rxBufferIndex + 1 := by omega
      simp [h1]
    · simp
  | readInto buffer len =>
    simp [I2C.step, I2C.readInto, readLoop_state len 0 s buffer b4 b2, Op.isRead,
      Op.isRequestFrom]

theorem init_invalid (c : Option SemaphoreHandle) (t : SemTable) (port : Nat) (h : port ≥ 2) :
    initI2CSemaphore c t port = (pdFAIL, t, 0) := by
  simp [initI2CSemaphore, h]

theorem init_present (c : Option SemaphoreHandle) (t : SemTable) (port : Nat) (h : port < 2)
    (x : SemaphoreHandle) (hx : t ⟨port, h⟩ = some x) :
    initI2CSemaphore c t port = (pdPASS, t, 0) := by
  have h2 : ¬ port ≥ 2 := by omega
  simp [initI2CSemaphore, h2, hx]

theorem init_absent_some (t : SemTable) (port : Nat) (h : port < 2)
    (hn : t ⟨port, h⟩ = none) (x : SemaphoreHandle) :
    initI2CSemaphore (some x) t port
      = (pdPASS, Function.update t ⟨port, h⟩ (some x), 1) := by
  have h2 : ¬ port ≥ 2 := by omega
  simp [initI2CSemaphore, h2, hn]

theorem init_absent_none (t : SemTable) (port : Nat) (h : port < 2)
    (hn : t ⟨port, h⟩ = none) :
    initI2CSemaphore none t port = (pdFAIL, t, 1) := by
  have h2 : ¬ port ≥ 2 := by omega
  have hu : Function.update t ⟨port, h⟩ none = t := by
    rw [← hn]
    exact Function.update_eq_self _ _
  simp [initI2CSemaphore, h2, hn, hu]

theorem pdPASS_ne_pdFAIL : pdPASS ≠ pdFAIL := by decide

theorem init_creates (c : Option SemaphoreHandle) (t : SemTable) (port : Nat) (h : port < 2)
    (hs : t.slot port = none) :
    (initI2CSemaphore c t port).2.1.slot port = c ∧ (initI2CSemaphore c t port).2.2 = 1 := by
  have ht : t ⟨port, h⟩ = none := by
    simpa [SemTable.slot, h] using hs
  cases c with
  | none =>
    rw [init_absent_none t port h ht]
    exact ⟨hs, rfl⟩
  | some x =>
    rw [init_absent_some t port h ht x]
    simp [SemTable.slot, h]

/-! ## The read phase and the receive cursor -/

/-- C11: in a build with `sizeof(_rxBuffer) ≤ 255`, for every object on which
`requestFrom` reaches its read phase (nothing staged, or the staged write not
short) and a blocking read that reports no more than the clamped quantity it
was asked for: if the read reports a negative result, `_rxBufferLength`
becomes 0 and `requestFrom` returns 0; otherwise `_rxBufferLength` becomes the
reported count and `requestFrom` returns that count; in both cases
`_rxBufferIndex` is 0 afterwards. -/
theorem requestFrom_read_phase (B : Build) (P : PhysicalLayer) (s : I2C) (address : Byte)
    (quantity : Nat) (nostop : Bool)
    (hreach : s.txBufferLength = 0 ∨
      ¬ P.i2c_write_blocking address s.staged s.nostop < (s.txBufferLength : Int))
    (hB : B.rxSize ≤ 255)
    (hP : (P.i2c_read_blocking address (min quantity B.rxSize) nostop).1
      ≤ ((min quantity B.rxSize : Nat) : Int)) :
    ((P.i2c_read_blocking address (min quantity B.rxSize) nostop).1 < 0 →
      (s.requestFrom B P address quantity nostop).2.1.rxBufferLength = 0 ∧
      (s.requestFrom B P address quantity nostop).1 = 0) ∧
    (0 ≤ (P.i2c_read_blocking address (min quantity B.rxSize) nostop).1 →
      ((s.requestFrom B P address quantity nostop).2.1.rxBufferLength : Int)
        = (P.i2c_read_blocking address (min quantity B.rxSize) nostop).1 ∧
      ((s.requestFrom B P address quantity nostop).1 : Int)
        = (P.i2c_read_blocking address (min quantity B.rxSize) nostop).1) ∧
    (s.requestFrom B P address quantity nostop).2.1.rxBufferIndex = 0 := by
  rw [requestFrom_proceeds B P s address quantity nostop hreach]
  simp only [I2C.requestFromRead]
  refine ⟨?_, ?_, trivial⟩
  · intro h
    simp [h]
  · intro h
    have h1 : ¬ (P.i2c_read_blocking address (min quantity B.rxSize) nostop).1 < 0 := by omega
    have h2 : (min quantity B.rxSize : Nat) ≤ 255 := le_trans (min_le_right _ _) hB
    simp only [h1, if_false]
    constructor <;> omega

/-- Witness of C11: an object whose cursor stands at 1 requests bytes on a
layer where no device acknowledges; the length and the cursor are 0 after. -/
theorem requestFrom_read_phase_witness :
    (received.read.2.txBufferLength = 0 ∨
      ¬ silent.i2c_write_blocking 0x50 received.read.2.staged received.read.2.nostop
        < (received.read.2.txBufferLength : Int)) ∧
    wire32.rxSize ≤ 255 ∧
    (silent.i2c_read_blocking 0x50 (min 4 wire32.rxSize) false).1
      ≤ ((min 4 wire32.rxSize : Nat) : Int) ∧
    received.read.2.rxBufferIndex = 1 ∧
    (received.read.2.requestFrom wire32 silent 0x50 4 false).1 = 0 ∧
    (received.read.2.requestFrom wire32 silent 0x50 4 false).2.1.rxBufferIndex = 0 :=
  have h := requestFrom_read_phase wire32 silent received.read.2 0x50 4 false
    (Or.inl (by decide)) (by decide) (by decide)
  ⟨Or.inl (by decide), by decide, by decide, by decide, (h.1 (by decide)).2, h.2.2⟩

/-- C12: on every object with `_rxBufferIndex ≤ _rxBufferLength` and
`_rxBufferLength` in the range of uint8_t: when the cursor is below the
length, `read()` returns the byte at the cursor, a value in 0..255, and
advances the cursor by exactly 1, changing nothing else; when the cursor
equals the length it returns -1 and leaves the object unchanged; and it
returns -1 if and only if `available()` was 0. -/
theorem read_contract (s : I2C) (hidx : s.rxBufferIndex ≤ s.rxBufferLength)
    (hlen : s.rxBufferLength < 256) :
    (s.rxBufferIndex < s.rxBufferLength →
      s.read.1 = ((s.rxBuffer.getD s.rxBufferIndex 0).val : Int) ∧
      0 ≤ s.read.1 ∧ s.read.1 ≤ 255 ∧
      s.read.2 = { s with rxBufferIndex := s.rxBufferIndex + 1 }) ∧
    (s.rxBufferIndex = s.rxBufferLength → s.read = (-1, s)) ∧
    (s.read.1 = -1 ↔ s.available = 0) := by
  refine ⟨?_, ?_, ?_⟩
  · intro h
    rw [read_advances s h (by omega)]
    have hb := (s.rxBuffer.getD s.rxBufferIndex 0).isLt
    refine ⟨rfl, ?_, ?_, rfl⟩
    · exact Int.ofNat_nonneg _
    · simp only []
      omega
  · intro h
    exact read_empty s (by omega)
  · by_cases h : s.rxBufferIndex < s.rxBufferLength
    · rw [read_advances s h (by omega)]
      simp only [I2C.available]
      have hb : (0 : Int) ≤ ((s.rxBuffer.getD s.rxBufferIndex 0).val : Int) :=
        Int.ofNat_nonneg _
      constructor <;> intro h' <;> omega
    · rw [read_empty s h]
      simp only [I2C.available, true_iff]
      omega

/-- Witness of C12: the first read of the four received bytes returns 1. -/
theorem read_contract_witness :
    received.rxBufferIndex ≤ received.rxBufferLength ∧ received.rxBufferLength < 256 ∧
    received.rxBufferIndex < received.rxBufferLength ∧ received.read.1 = 1 :=
  have h := (read_contract received (by decide) (by decide)).1 (by decide)
  ⟨by decide, by decide, by decide, h.1.trans (by decide)⟩

/-- C13: on every object with `_rxBufferIndex ≤ _rxBufferLength` and
`_rxBufferLength` in the range of uint8_t, and every caller array with room
for `maxLen` bytes: `read(outBuffer, maxLen)` copies exactly
`k = min(maxLen, available())` bytes, the cells `_rxBufferIndex ..
_rxBufferIndex + k - 1` of `_rxBuffer` in order into `outBuffer[0..k-1]`,
leaves `outBuffer` from position `k` on untouched, advances the cursor by
exactly `k` and changes no other member. -/
theorem read_into_contract (s : I2C) (outBuffer : List Byte) (maxLen : Nat)
    (hidx : s.rxBufferIndex ≤ s.rxBufferLength) (hlen : s.rxBufferLength < 256)
    (hroom : maxLen ≤ outBuffer.length) :
    ((min maxLen (s.rxBufferLength - s.rxBufferIndex) : Nat) : Int)
      = min (maxLen : Int) s.available ∧
    (s.readInto outBuffer maxLen).2.2
      = (List.range (min maxLen (s.rxBufferLength - s.rxBufferIndex))).map
          (fun j => s.rxBuffer.getD (s.rxBufferIndex + j) 0)
        ++ outBuffer.drop (min maxLen (s.rxBufferLength - s.rxBufferIndex)) ∧
    (s.readInto outBuffer maxLen).2.1
      = { s with rxBufferIndex :=
            s.rxBufferIndex + min maxLen (s.rxBufferLength - s.rxBufferIndex) } := by
  refine ⟨?_, ?_, ?_⟩
  · simp only [I2C.available]
    omega
  · have hb := readLoop_buffer maxLen 0 s outBuffer hlen hidx (by omega)
    simpa [I2C.readInto] using hb
  · exact readLoop_state maxLen 0 s outBuffer hlen hidx

/-- Witness of C13: three of the four received bytes copied into an array of
six. -/
theorem read_into_contract_witness :
    received.rxBufferIndex ≤ received.rxBufferLength ∧ received.rxBufferLength < 256 ∧
    3 ≤ [9, 9, 9, 9, 9, (9 : Byte)].length ∧
    (received.readInto [9, 9, 9, 9, 9, 9] 3).2.2 = [1, 2, 3, 9, 9, 9] :=
  have h := (read_into_contract received [9, 9, 9, 9, 9, 9] 3 (by decide) (by decide)
    (by decide)).2.1
  ⟨by decide, by decide, by decide, h.trans (by decide)⟩

/-- C15: in every object reached from a constructed one by any sequence of
calls of beginTransmission, write (single or bulk), endTransmission,
requestFrom, available and read (single or bulk), the physical layer never
reporting more bytes read than requested: `_txBufferLength` is within the
transmit capacity, `_rxBufferIndex ≤ _rxBufferLength`, `_rxBufferLength` is
within the receive capacity, `available()` is not negative; and whatever call
comes next, the cursor does not decrease if it is a read, is 0 if it is
requestFrom, and is unchanged otherwise. -/
theorem reachable_bounds (B : Build) (isI2c1 : Bool) (mem : I2C) (ops : List Op)
    (hops : ∀ op ∈ ops, op.lawful) :
    ((I2C.construct isI2c1 mem).run B ops).txBufferLength ≤ B.txSize ∧
    ((I2C.construct isI2c1 mem).run B ops).rxBufferIndex
      ≤ ((I2C.construct isI2c1 mem).run B ops).rxBufferLength ∧
    ((I2C.construct isI2c1 mem).run B ops).rxBufferLength ≤ B.rxSize ∧
    0 ≤ ((I2C.construct isI2c1 mem).run B ops).available ∧
    (∀ op : Op,
      (op.isRead = true → ((I2C.construct isI2c1 mem).run B ops).rxBufferIndex
        ≤ (((I2C.construct isI2c1 mem).run B ops).step B op).rxBufferIndex) ∧
      (op.isRequestFrom = true →
        (((I2C.construct isI2c1 mem).run B ops).step B op).rxBufferIndex = 0) ∧
      (op.isRead = false → op.isRequestFrom = false →
        (((I2C.construct isI2c1 mem).run B ops).step B op).rxBufferIndex
          = ((I2C.construct isI2c1 mem).run B ops).rxBufferIndex)) := by
  have hb := run_bounded B ops (I2C.construct isI2c1 mem) hops (construct_bounded B isI2c1 mem)
  obtain ⟨b1, b2, b3, b4⟩ := hb
  refine ⟨b1, b2, b3, ?_, fun op => step_cursor B _ op ⟨b1, b2, b3, b4⟩⟩
  simp only [I2C.available]
  omega

/-- Witness of C15: the sample sequence of calls on the fresh object. -/
theorem reachable_bounds_witness :
    (∀ op ∈ sampleCalls, op.lawful) ∧
    ((I2C.construct false zeroMemory).run wire32 sampleCalls).rxBufferLength ≤ wire32.rxSize ∧
    ((I2C.construct false zeroMemory).run wire32 sampleCalls).rxBufferIndex = 1 :=
  have hl : ∀ op ∈ sampleCalls, op.lawful := by
    intro op hop
    simp only [sampleCalls, List.mem_cons, List.mem_singleton, List.not_mem_nil, or_false] at hop
    rcases hop with h | h | h | h <;> subst h <;>
      simp [Op.lawful, PhysicalLayer.readsWithinRequest, obedient]
  ⟨hl, (reachable_bounds wire32 false zeroMemory sampleCalls hl).2.2.1, by decide⟩

/-! ## Frame properties -/

/-- C17: on every object with `_transmitting` true, whatever the blocking
write reports, `endTransmission()` changes `_transmitting` to false and no
other member: the array `_txBuffer`, `_txBufferLength` (so the staged bytes),
`_txAddress`, `_nostop`, `_rxBuffer`, `_rxBufferLength` and `_rxBufferIndex`
stay as they were. -/
theorem endTransmission_frame (B : Build) (P : PhysicalLayer) (s : I2C)
    (h : s.transmitting = true) :
    (s.endTransmission B P).2.1 = { s with transmitting := false } ∧
    (s.endTransmission B P).2.1.staged = s.staged := by
  simp only [I2C.endTransmission, h]
  split_ifs <;> simp_all [I2C.staged]

/-- Witness of C17: one staged byte, no device acknowledges; the byte stays
staged. -/
theorem endTransmission_frame_witness :
    staged10.transmitting = true ∧
    (staged10.endTransmission wire32 silent).2.1.staged = [0x10] :=
  ⟨by decide, (endTransmission_frame wire32 silent staged10 (by decide)).2.trans (by decide)⟩

/-- C18: in `requestFrom(address, quantity, holdBus)` with staged bytes, the
calls contain exactly one blocking write, of the staged bytes to `address`
with the member `_nostop` as flag, and when that write is not short
`_txBufferLength` becomes 0 and the calls are that write followed by one
blocking read from `address` of `min(quantity, capacity)` bytes with the flag
`holdBus`; with nothing staged the only call is that read; and `_nostop` is
the flag of the last beginTransmission: after `beginTransmission(a0, hb)` and
a bulk write, the first call of a `requestFrom` with staged bytes is the write
with flag `hb`. -/
theorem requestFrom_phases (B : Build) (P : PhysicalLayer) (s : I2C) (address : Byte)
    (quantity : Nat) (holdBus : Bool) :
    (0 < s.txBufferLength →
      (s.requestFrom B P address quantity holdBus).2.2.filter BusEvent.isWrite
        = [BusEvent.write address s.staged s.nostop] ∧
      (¬ P.i2c_write_blocking address s.staged s.nostop < (s.txBufferLength : Int) →
        (s.requestFrom B P address quantity holdBus).2.1.txBufferLength = 0 ∧
        (s.requestFrom B P address quantity holdBus).2.2
          = [BusEvent.write address s.staged s.nostop,
             BusEvent.read address (min quantity B.rxSize) holdBus])) ∧
    (s.txBufferLength = 0 →
      (s.requestFrom B P address quantity holdBus).2.2
        = [BusEvent.read address (min quantity B.rxSize) holdBus]) ∧
    (∀ (a0 : Byte) (hb : Bool) (data : List Byte),
      0 < ((s.beginTransmission B a0 hb).1.writeBytes B data).2.txBufferLength →
      (((s.beginTransmission B a0 hb).1.writeBytes B data).2.requestFrom B P address quantity
          holdBus).2.2.head?
        = some (BusEvent.write address
            ((s.beginTransmission B a0 hb).1.writeBytes B data).2.staged hb)) := by
  have key : ∀ u : I2C, 0 < u.txBufferLength →
      (u.requestFrom B P address quantity holdBus).2.2.filter BusEvent.isWrite
        = [BusEvent.write address u.staged u.nostop] ∧
      (u.requestFrom B P address quantity holdBus).2.2.head?
        = some (BusEvent.write address u.staged u.nostop) := by
    intro u hu
    by_cases hlt : P.i2c_write_blocking address u.staged u.nostop < (u.txBufferLength : Int)
    · rw [requestFrom_aborts B P u address quantity holdBus hu hlt]
      simp [BusEvent.isWrite]
    · rw [requestFrom_proceeds B P u address quantity holdBus (Or.inr hlt)]
      simp [I2C.requestFromRead, hu, BusEvent.isWrite]
  refine ⟨?_, ?_, ?_⟩
  · intro h0
    refine ⟨(key s h0).1, ?_⟩
    intro hlt
    rw [requestFrom_proceeds B P s address quantity holdBus (Or.inr hlt)]
    simp [I2C.requestFromRead, h0]
  · intro h0
    rw [requestFrom_proceeds B P s address quantity holdBus (Or.inl h0)]
    simp [I2C.requestFromRead, h0]
  · intro a0 hb data hpos
    have hf := (writeBytes_frame B (s.beginTransmission B a0 hb).1 data).1
    have hn : ((s.beginTransmission B a0 hb).1.writeBytes B data).2.nostop = hb := by
      rw [hf.2.2.2.2.2.2.2]
      rfl
    have hk := (key _ hpos).2
    rw [hn] at hk
    exact hk

/-- Witness of C18: opened with the flag false, one byte staged, then
`requestFrom(0x51, 2, true)`: the write goes to 0x51 with the flag false, the
read with the flag true. -/
theorem requestFrom_phases_witness :
    0 < staged10.txBufferLength ∧
    ¬ (accepting [7]).i2c_write_blocking 0x51 staged10.staged staged10.nostop
        < (staged10.txBufferLength : Int) ∧
    (staged10.requestFrom wire32 (accepting [7]) 0x51 2 true).2.2
      = [BusEvent.write 0x51 [0x10] false, BusEvent.read 0x51 2 true] :=
  ⟨by decide, by decide,
    (((requestFrom_phases wire32 (accepting [7]) staged10 0x51 2 true).1 (by decide)).2
      (by decide)).2.trans (by decide)⟩

/-- C19: from every object (idle or transmitting) and in every branch,
`requestFrom` leaves `_transmitting`, `_txAddress` and `_nostop` as they were;
and in the abort branch (staged bytes, short write) it also leaves `_txBuffer`
and `_txBufferLength` as they were, so the same bytes are still staged. -/
theorem requestFrom_frame (B : Build) (P : PhysicalLayer) (s : I2C) (address : Byte)
    (quantity : Nat) (nostop : Bool) :
    (s.requestFrom B P address quantity nostop).2.1.transmitting = s.transmitting ∧
    (s.requestFrom B P address quantity nostop).2.1.txAddress = s.txAddress ∧
    (s.requestFrom B P address quantity nostop).2.1.nostop = s.nostop ∧
    (0 < s.txBufferLength ∧
        P.i2c_write_blocking address s.staged s.nostop < (s.txBufferLength : Int) →
      (s.requestFrom B P address quantity nostop).2.1.txBuffer = s.txBuffer ∧
      (s.requestFrom B P address quantity nostop).2.1.txBufferLength = s.txBufferLength ∧
      (s.requestFrom B P address quantity nostop).2.1.staged = s.staged) := by
  by_cases hab : 0 < s.txBufferLength ∧
      P.i2c_write_blocking address s.staged s.nostop < (s.txBufferLength : Int)
  · rw [requestFrom_aborts B P s address quantity nostop hab.1 hab.2]
    simp [I2C.staged]
  · have hw : s.txBufferLength = 0 ∨
        ¬ P.i2c_write_blocking address s.staged s.nostop < (s.txBufferLength : Int) := by
      by_cases h0 : 0 < s.txBufferLength
      · exact Or.inr (fun h => hab ⟨h0, h⟩)
      · exact Or.inl (by omega)
    rw [requestFrom_proceeds B P s address quantity nostop hw]
    simp [I2C.requestFromRead, hab]

/-- Witness of C19: one staged byte, no device acknowledges; the byte is still
staged after `requestFrom`. -/
theorem requestFrom_frame_witness :
    (0 < staged10.txBufferLength ∧
      silent.i2c_write_blocking 0x50 staged10.staged staged10.nostop
        < (staged10.txBufferLength : Int)) ∧
    (staged10.requestFrom wire32 silent 0x50 4 false).2.1.staged = [0x10] :=
  ⟨by decide,
    ((requestFrom_frame wire32 silent staged10 0x50 4 false).2.2.2 (by decide)).2.2.trans
      (by decide)⟩

/-! ## The table of gates -/

/-- C20: for every array, port and result `c` of xSemaphoreCreateMutex:
with `port < 2` and the slot set, initI2CSemaphore makes no creation call,
leaves the array unchanged and returns pdPASS; once a call has returned
pdPASS, a second call (whatever a creation would return) returns pdPASS,
creates nothing and leaves the array as the first call left it, and with the
same creation result two calls leave the same array as one; the result is
pdFAIL exactly when `port ≥ 2`, or the slot was empty and the creation
returned NULL, and is pdPASS otherwise; for `port ≥ 2` the array is untouched
and nothing is created; the slots of other ports are unchanged; a set slot is
never changed by initI2CSemaphore, and takeI2C and releaseI2C leave the array
as it is; and with `port < 2` and the slot empty, initI2CSemaphore calls
xSemaphoreCreateMutex exactly once and stores what it returned in the slot of
`port`. -/
theorem initI2CSemaphore_contract (c : Option SemaphoreHandle) (t : SemTable) (port : Nat) :
    (port < 2 → t.slot port ≠ none → initI2CSemaphore c t port = (pdPASS, t, 0)) ∧
    (∀ c2 : Option SemaphoreHandle, (initI2CSemaphore c t port).1 = pdPASS →
      initI2CSemaphore c2 (initI2CSemaphore c t port).2.1 port
        = (pdPASS, (initI2CSemaphore c t port).2.1, 0)) ∧
    (initI2CSemaphore c (initI2CSemaphore c t port).2.1 port).2.1
      = (initI2CSemaphore c t port).2.1 ∧
    ((initI2CSemaphore c t port).1 = pdFAIL ↔ port ≥ 2 ∨ (t.slot port = none ∧ c = none)) ∧
    ((initI2CSemaphore c t port).1 = pdPASS ∨ (initI2CSemaphore c t port).1 = pdFAIL) ∧
    (port ≥ 2 → initI2CSemaphore c t port = (pdFAIL, t, 0)) ∧
    (∀ q : Fin 2, q.val ≠ port → (initI2CSemaphore c t port).2.1 q = t q) ∧
    (∀ q : Fin 2, t q ≠ none → (initI2CSemaphore c t port).2.1 q = t q) ∧
    (∀ (f : SemaphoreHandle → Nat → Int) (delay : Nat), (takeI2C f t port delay).2 = t) ∧
    (∀ g : SemaphoreHandle → Int, (releaseI2C g t port).2 = t) ∧
    (port < 2 → t.slot port = none →
      (initI2CSemaphore c t port).2.1.slot port = c ∧ (initI2CSemaphore c t port).2.2 = 1) := by
  have hnew := init_creates c t port
  have htake : ∀ (f : SemaphoreHandle → Nat → Int) (delay : Nat),
      (takeI2C f t port delay).2 = t := by
    intro f delay
    unfold takeI2C
    split_ifs
    · rfl
    · split <;> rfl
  have hrel : ∀ g : SemaphoreHandle → Int, (releaseI2C g t port).2 = t := by
    intro g
    unfold releaseI2C
    split_ifs
    · rfl
    · split <;> rfl
  by_cases hp : port ≥ 2
  · have hi := init_invalid c t port hp
    have hs : t.slot port = none := by
      simp [SemTable.slot, Nat.not_lt.mpr hp]
    refine ⟨fun h => absurd hp (by omega), ?_, ?_, ?_, ?_, fun _ => hi, ?_, ?_, htake, hrel, hnew⟩
    · intro c2 h
      rw [hi] at h
      exact absurd h.symm pdPASS_ne_pdFAIL
    · rw [hi]
      simp only []
      rw [init_invalid c t port hp]
    · rw [hi]
      simp [hp]
    · rw [hi]
      exact Or.inr rfl
    · intro q _
      rw [hi]
    · intro q _
      rw [hi]
  · have hlt : port < 2 := by omega
    have hs : t.slot port = t ⟨port, hlt⟩ := by simp [SemTable.slot, hlt]
    cases ht : t ⟨port, hlt⟩ with
    | some x =>
      have hi := init_present c t port hlt x ht
      refine ⟨fun _ _ => hi, ?_, ?_, ?_, ?_, fun h => absurd h hp, ?_, ?_, htake, hrel, hnew⟩
      · intro c2 _
        rw [hi]
        exact init_present c2 t port hlt x ht
      · rw [hi]
        simp only []
        rw [hi]
      · rw [hi, hs, ht]
        simp [pdPASS_ne_pdFAIL, hp]
      · rw [hi]
        exact Or.inl rfl
      · intro q _
        rw [hi]
      · intro q _
        rw [hi]
    | none =>
      cases c with
      | none =>
        have hi := init_absent_none t port hlt ht
        refine ⟨fun _ h => absurd (hs.trans ht) h, ?_, ?_, ?_, ?_, fun h => absurd h hp, ?_, ?_,
          htake, hrel, hnew⟩
        · intro c2 h
          rw [hi] at h
          exact absurd h.symm pdPASS_ne_pdFAIL
        · rw [hi]
          simp only []
          rw [hi]
        · rw [hi, hs, ht]
          simp
        · rw [hi]
          exact Or.inr rfl
        · intro q _
          rw [hi]
        · intro q _
          rw [hi]
      | some x =>
        have hi := init_absent_some t port hlt ht x
        have hset : Function.update t ⟨port, hlt⟩ (some x) ⟨port, hlt⟩ = some x :=
          Function.update_same _ _ _
        refine ⟨fun _ h => absurd (hs.trans ht) h, ?_, ?_, ?_, ?_, fun h => absurd h hp, ?_, ?_,
          htake, hrel, hnew⟩
        · intro c2 _
          rw [hi]
          exact init_present c2 _ port hlt x hset
        · rw [hi]
          simp only []
          rw [init_present (some x) _ port hlt x hset]
        · rw [hi, hs, ht]
          simp [pdPASS_ne_pdFAIL, hp]
        · rw [hi]
          exact Or.inl rfl
        · intro q hq
          rw [hi]
          simp only []
          exact Function.update_noteq (fun e => hq (by rw [e])) _ _
        · intro q hq
          rw [hi]
          simp only []
          exact Function.update_noteq (fun e => hq (by rw [e, ht])) _ _

/-- Witness of C20: port 0 initialised twice from the empty array; the first
call creates one mutex and stores its handle 7, the second call creates
nothing and keeps that handle. -/
theorem initI2CSemaphore_contract_witness :
    (0 : Nat) < 2 ∧ SemTable.initial.slot 0 = none ∧
    (initI2CSemaphore (some 7) SemTable.initial 0).2.1.slot 0 = some 7 ∧
    (initI2CSemaphore (some 7) SemTable.initial 0).2.2 = 1 ∧
    (initI2CSemaphore (some 7) SemTable.initial 0).1 = pdPASS ∧
    initI2CSemaphore (some 8) (initI2CSemaphore (some 7) SemTable.initial 0).2.1 0
      = (pdPASS, (initI2CSemaphore (some 7) SemTable.initial 0).2.1, 0) :=
  have h := initI2CSemaphore_contract (some 7) SemTable.initial 0
  have hc := h.2.2.2.2.2.2.2.2.2.2 (by decide) (by decide)
  ⟨by decide, by decide, hc.1, hc.2, by decide, h.2.1 (some 8) (by decide)⟩

/-! ## Two tasks between beginTransmission and endTransmission -/

/-- C16 (the code at a schedule of two tasks, FreeRTOS build): task 0 calls
`beginTransmission(0x50)`, holds the mutex and has staged 0x10; task 1 then
calls `beginTransmission(0x51)`: its member assignments run before its
takeI2C, so while task 0 still holds the mutex the staged bytes of task 0 are
gone and the target address is 0x51; task 1 is then suspended in takeI2C; and
the `endTransmission()` of task 0 writes no byte, to address 0x51. -/
theorem two_tasks_begin_clobbers :
    (Shared.run wire32rtos sharedFresh taskAOpens).map
        (fun w => (w.holder, w.obj.staged, w.obj.txAddress))
      = some (some 0, [0x10], 0x50) ∧
    (Shared.run wire32rtos sharedFresh
        (taskAOpens ++ [(1, TaskStep.beginAssign 0x51 false)])).map
        (fun w => (w.holder, w.obj.staged, w.obj.txAddress))
      = some (some 0, [], 0x51) ∧
    (Shared.run wire32rtos sharedFresh
        (taskAOpens ++ [(1, TaskStep.beginAssign 0x51 false), (1, TaskStep.beginTake)])).isNone
      = true ∧
    (Shared.run wire32rtos sharedFresh
        (taskAOpens ++ [(1, TaskStep.beginAssign 0x51 false),
          (0, TaskStep.endTransmission (accepting []))])).map (fun w => w.calls)
      = some [(0, BusEvent.take 0), (0, BusEvent.write 0x51 [] false),
          (0, BusEvent.release 0)] := by
  decide

end I2CProxy
